import Mathlib

/-!
Verification of the cricket head-to-head statistics tool.

The Python sources `cricket_head_to_head.py` and `cricket_report_generator.py`
are embedded shallowly: Python strings become lists of characters, dictionaries
become association lists kept in insertion order (matching CPython dict order),
and the per-match mutation of the aggregate maps becomes an explicit step
function on an aggregate-state record.
-/

namespace Cricket

/-- Python strings are modelled as lists of characters. -/
abbrev Str := List Char

/-- Python substring test `pat in s`. -/
def containsSub (pat : Str) : Str → Bool
  | [] => pat.isEmpty
  | s@(_ :: cs) => pat.isPrefixOf s || containsSub pat cs

/-- Python `s.split(" - ")`: cut at every non-overlapping occurrence of
the separator, scanning left to right. -/
def splitOnDash : Str → List Str
  | ' ' :: '-' :: ' ' :: rest => [] :: splitOnDash rest
  | c :: rest =>
    match splitOnDash rest with
    | [] => [[c]]
    | h :: t => (c :: h) :: t
  | [] => [[]]

/-- Python `s.split(" ")`. -/
def splitOnSpace : Str → List Str
  | ' ' :: rest => [] :: splitOnSpace rest
  | c :: rest =>
    match splitOnSpace rest with
    | [] => [[c]]
    | h :: t => (c :: h) :: t
  | [] => [[]]

/-- `parse_tournament_type` from `cricket_head_to_head.py` (lines 45-73):
the variant without the extra `"iBC PRO 360" not in tournament_name` guard. -/
def parse_tournament_type (tournament_name : Str) : Str × Str :=
  if tournament_name.isEmpty then ("Other".toList, "Unknown".toList)
  else if containsSub ("iBC PRO 360".toList) tournament_name then
    let parts := splitOnDash tournament_name
    let subtype :=
      if 1 < parts.length then
        "iBC PRO 360 - ".toList ++ (splitOnSpace (parts.getD 1 [])).getD 0 []
      else "iBC PRO 360 - Unknown".toList
    ("iBC PRO 360".toList, subtype)
  else if containsSub ("iBC 360".toList) tournament_name then
    let parts := splitOnDash tournament_name
    let subtype :=
      if 1 < parts.length then
        "iBC 360 - ".toList ++ (splitOnSpace (parts.getD 1 [])).getD 0 []
      else "iBC 360 - Unknown".toList
    ("iBC 360".toList, subtype)
  else ("Other".toList, tournament_name)

/-- `parse_tournament_type` from `cricket_report_generator.py` (lines 44-69):
the variant whose `"iBC 360"` branch additionally requires
`"iBC PRO 360" not in tournament_name`. -/
def parse_tournament_type_rg (tournament_name : Str) : Str × Str :=
  if tournament_name.isEmpty then ("Other".toList, "Unknown".toList)
  else if containsSub ("iBC PRO 360".toList) tournament_name then
    let parts := splitOnDash tournament_name
    let subtype :=
      if 1 < parts.length then
        "iBC PRO 360 - ".toList ++ (splitOnSpace (parts.getD 1 [])).getD 0 []
      else "iBC PRO 360 - Unknown".toList
    ("iBC PRO 360".toList, subtype)
  else if containsSub ("iBC 360".toList) tournament_name &&
      !containsSub ("iBC PRO 360".toList) tournament_name then
    let parts := splitOnDash tournament_name
    let subtype :=
      if 1 < parts.length then
        "iBC 360 - ".toList ++ (splitOnSpace (parts.getD 1 [])).getD 0 []
      else "iBC 360 - Unknown".toList
    ("iBC 360".toList, subtype)
  else ("Other".toList, tournament_name)

theorem parse_variants_eq (n : Str) :
    parse_tournament_type n = parse_tournament_type_rg n := by
  unfold parse_tournament_type parse_tournament_type_rg
  split_ifs <;> first
    | rfl
    | (exfalso; simp_all)

/-- Does the string start with the separator `" - "`? Helper predicate used
only to phrase lemmas about `splitOnDash`. -/
def isSepStart : Str → Bool
  | ' ' :: '-' :: ' ' :: _ => true
  | _ => false

theorem splitOnDash_ne_nil (l : Str) : splitOnDash l ≠ [] := by
  unfold splitOnDash
  split
  · simp
  · split <;> simp
  · simp

theorem splitOnSpace_ne_nil (l : Str) : splitOnSpace l ≠ [] := by
  unfold splitOnSpace
  split
  · simp
  · split <;> simp
  · simp

theorem splitOnDash_cons_of_not_sep (c : Char) (cs : Str)
    (h : isSepStart (c :: cs) = false) :
    splitOnDash (c :: cs) = (c :: (splitOnDash cs).headD []) :: (splitOnDash cs).tail := by
  cases hsd : splitOnDash cs with
  | nil => exact absurd hsd (splitOnDash_ne_nil cs)
  | cons hd tl =>
    simp only [List.headD_cons, List.tail_cons]
    unfold splitOnDash
    split
    · rename_i rest heq
      injection heq with h1 h2
      subst h1; subst h2
      simp [isSepStart] at h
    · rename_i c2 rest hno heq
      injection heq with h1 h2
      subst h1; subst h2
      rw [hsd]
    · rename_i heq
      exact absurd heq (List.cons_ne_nil _ _)

theorem splitOnSpace_cons_of_ne (c : Char) (cs : Str) (h : ¬ c = ' ') :
    splitOnSpace (c :: cs) = (c :: (splitOnSpace cs).headD []) :: (splitOnSpace cs).tail := by
  cases hsd : splitOnSpace cs with
  | nil => exact absurd hsd (splitOnSpace_ne_nil cs)
  | cons hd tl =>
    simp only [List.headD_cons, List.tail_cons]
    unfold splitOnSpace
    split
    · rename_i rest heq
      injection heq with h1 h2
      exact absurd h1 h
    · rename_i c2 rest hno heq
      injection heq with h1 h2
      subst h1; subst h2
      rw [hsd]
    · rename_i heq
      exact absurd heq (List.cons_ne_nil _ _)

theorem headD_splitOnDash (c : Char) (cs : Str) (h : isSepStart (c :: cs) = false) :
    (splitOnDash (c :: cs)).headD [] = c :: (splitOnDash cs).headD [] := by
  rw [splitOnDash_cons_of_not_sep c cs h, List.headD_cons]

theorem headD_splitOnSpace (c : Char) (cs : Str) (h : ¬ c = ' ') :
    (splitOnSpace (c :: cs)).headD [] = c :: (splitOnSpace cs).headD [] := by
  rw [splitOnSpace_cons_of_ne c cs h, List.headD_cons]

theorem getD_zero_eq_headD (l : List Str) : l.getD 0 [] = l.headD [] := by
  cases l <;> rfl

theorem containsSub_of_isPrefixOf (pat s : Str) (h : pat.isPrefixOf s = true) :
    containsSub pat s = true := by
  cases s with
  | nil =>
    cases pat with
    | nil => rfl
    | cons p ps => simp [List.isPrefixOf] at h
  | cons c cs => simp [containsSub, h]

theorem parse_pro (n : Str) (hne : n.isEmpty = false)
    (hc : containsSub ("iBC PRO 360".toList) n = true) :
    parse_tournament_type n = ("iBC PRO 360".toList,
      if 1 < (splitOnDash n).length then
        "iBC PRO 360 - ".toList ++ (splitOnSpace ((splitOnDash n).getD 1 [])).getD 0 []
      else "iBC PRO 360 - Unknown".toList) := by
  unfold parse_tournament_type
  rw [if_neg (by simp [hne]), if_pos hc]

theorem token500 (X : Str) :
    (splitOnSpace ('5' :: '0' :: '0' :: ' ' :: X)).getD 0 [] = ['5', '0', '0'] := by
  rw [getD_zero_eq_headD,
    headD_splitOnSpace '5' _ (by decide),
    headD_splitOnSpace '0' _ (by decide),
    headD_splitOnSpace '0' _ (by decide),
    show splitOnSpace (' ' :: X) = [] :: splitOnSpace X from rfl,
    List.headD_cons]

/-- C3 (amended): for every tournament name that STARTS with the string
`"iBC PRO 360 - 500 Something"` (rather than merely containing it anywhere),
both classifier variants return `("iBC PRO 360", "iBC PRO 360 - 500")`. -/
theorem claim_C3_amended (rest : Str) :
    parse_tournament_type ("iBC PRO 360 - 500 Something".toList ++ rest)
        = ("iBC PRO 360".toList, "iBC PRO 360 - 500".toList) ∧
    parse_tournament_type_rg ("iBC PRO 360 - 500 Something".toList ++ rest)
        = ("iBC PRO 360".toList, "iBC PRO 360 - 500".toList) := by
  have hnil := splitOnDash_ne_nil ("500 Something".toList ++ rest)
  have key : parse_tournament_type ("iBC PRO 360 - 500 Something".toList ++ rest)
      = ("iBC PRO 360".toList, "iBC PRO 360 - 500".toList) := by
    rw [parse_pro ("iBC PRO 360 - 500 Something".toList ++ rest) rfl
      (containsSub_of_isPrefixOf ("iBC PRO 360".toList)
        ("iBC PRO 360 - 500 Something".toList ++ rest) rfl)]
    rw [show splitOnDash ("iBC PRO 360 - 500 Something".toList ++ rest)
        = "iBC PRO 360".toList :: splitOnDash ("500 Something".toList ++ rest) from rfl]
    rw [if_pos (by
      have h0 := List.length_pos.mpr hnil
      simp only [List.length_cons]
      omega)]
    rw [List.getD_cons_succ,
      show ("500 Something".toList ++ rest)
        = '5' :: '0' :: '0' :: ' ' :: ("Something".toList ++ rest) from rfl,
      getD_zero_eq_headD (splitOnDash ('5' :: '0' :: '0' :: ' ' :: ("Something".toList ++ rest))),
      headD_splitOnDash '5' ('0' :: '0' :: ' ' :: ("Something".toList ++ rest)) rfl,
      headD_splitOnDash '0' ('0' :: ' ' :: ("Something".toList ++ rest)) rfl,
      headD_splitOnDash '0' (' ' :: ("Something".toList ++ rest)) rfl,
      headD_splitOnDash ' ' ("Something".toList ++ rest) rfl,
      token500]
    rfl
  exact ⟨key, (parse_variants_eq _).symm.trans key⟩

/-- C3 counterexample: the name `"A - iBC PRO 360 - 500 Something"` contains the
substring `"iBC PRO 360 - 500 Something"`, yet both classifier variants return
subtype `"iBC PRO 360 - iBC"` (the split on `" - "` takes the second part of the
WHOLE name, here `"iBC PRO 360"`, whose first token is `"iBC"`), not
`"iBC PRO 360 - 500"`. This refutes the claim as stated. -/
theorem claim_C3_counterexample :
    containsSub ("iBC PRO 360 - 500 Something".toList)
        ("A - iBC PRO 360 - 500 Something".toList) = true ∧
    parse_tournament_type ("A - iBC PRO 360 - 500 Something".toList)
        = ("iBC PRO 360".toList, "iBC PRO 360 - iBC".toList) ∧
    parse_tournament_type ("A - iBC PRO 360 - 500 Something".toList)
        ≠ ("iBC PRO 360".toList, "iBC PRO 360 - 500".toList) ∧
    parse_tournament_type_rg ("A - iBC PRO 360 - 500 Something".toList)
        ≠ ("iBC PRO 360".toList, "iBC PRO 360 - 500".toList) := by
  refine ⟨?_, ?_, ?_, ?_⟩ <;> decide

/-- C2: the two classifier variants (`cricket_head_to_head.py` without the
extra guard, `cricket_report_generator.py` with the guard requiring the absence
of `"iBC PRO 360"`) agree on every tournament-name string, and a name
containing `"iBC PRO 360"` is classified with mainType `"iBC PRO 360"` (never
`"iBC 360"`) by both. The guard is redundant because the `"iBC 360"` branch is
only reached when the `"iBC PRO 360"` branch failed. -/
theorem claim_C2_classifier_variants_agree (name : Str) :
    parse_tournament_type name = parse_tournament_type_rg name ∧
    (containsSub ("iBC PRO 360".toList) name = true →
      (parse_tournament_type name).1 = "iBC PRO 360".toList ∧
      (parse_tournament_type_rg name).1 = "iBC PRO 360".toList ∧
      (parse_tournament_type name).1 ≠ "iBC 360".toList ∧
      (parse_tournament_type_rg name).1 ≠ "iBC 360".toList) := by
  refine ⟨parse_variants_eq name, fun hc => ?_⟩
  have hne : name.isEmpty = false := by
    cases name with
    | nil => simp [containsSub] at hc
    | cons c cs => rfl
  have h1 := parse_pro name hne hc
  have h2 : parse_tournament_type_rg name = parse_tournament_type name :=
    (parse_variants_eq name).symm
  have hne360 : ("iBC PRO 360".toList : Str) ≠ "iBC 360".toList := by decide
  refine ⟨by rw [h1], by rw [h2, h1], by rw [h1]; exact hne360, by rw [h2, h1]; exact hne360⟩

/-- Witness for C2 at the concrete name `"iBC PRO 360 - 500"`. -/
theorem claim_C2_witness :
    parse_tournament_type ("iBC PRO 360 - 500".toList)
        = parse_tournament_type_rg ("iBC PRO 360 - 500".toList) ∧
    (parse_tournament_type ("iBC PRO 360 - 500".toList)).1 = "iBC PRO 360".toList ∧
    (parse_tournament_type_rg ("iBC PRO 360 - 500".toList)).1 = "iBC PRO 360".toList ∧
    (parse_tournament_type ("iBC PRO 360 - 500".toList)).1 ≠ "iBC 360".toList ∧
    (parse_tournament_type_rg ("iBC PRO 360 - 500".toList)).1 ≠ "iBC 360".toList :=
  ⟨(claim_C2_classifier_variants_agree ("iBC PRO 360 - 500".toList)).1,
   (claim_C2_classifier_variants_agree ("iBC PRO 360 - 500".toList)).2 (by decide)⟩

/-- The tracked player id, `self.player_id` in both source classes. -/
def player_id : Str := "7899a991-fffd-495f-851e-fc5afa366356".toList

/-- One entry of the `users` array of a match record. Fields are optional
because the Python code reads them with `dict.get`. -/
structure User where
  user_id : Option Str
  name : Option Str
  result : Option Str
  pic_url : Option Str
deriving DecidableEq

/-- The `match_user_details` object (`users` read with `.get('users', [])`). -/
structure MatchUserDetails where
  users : Option (List User)
deriving DecidableEq

/-- The `tournament_type_details` object nested in `tournament_match_details`. -/
structure TournamentTypeDetails where
  tournament_name : Option Str
deriving DecidableEq

/-- The `tournament_match_details` object of a match record. -/
structure TournamentMatchDetails where
  tournament_type_details : Option TournamentTypeDetails
deriving DecidableEq

/-- A raw match record, with exactly the fields the aggregators read. -/
structure MatchRec where
  status : Option Str
  match_mode : Option Str
  match_user_details : Option MatchUserDetails
  tournament_name : Option Str
  tournament_match_details : Option TournamentMatchDetails
deriving DecidableEq

/-- One opponent tally: the `{"wins": 0, "losses": 0, "total_matches": 0}`
default-dict value. -/
@[ext] structure Tally where
  wins : Nat
  losses : Nat
  total_matches : Nat
deriving DecidableEq

/-- The zero tally created lazily by the defaultdict. -/
def Tally.zero : Tally := ⟨0, 0, 0⟩

/-- `head_to_head_stats` and the inner maps of `tournament_stats`: a Python
dict in insertion order, modelled as an association list. -/
abbrev Stats := List (Str × Tally)

/-- `tournament_stats`: outer dict from bucket label to opponent map. -/
abbrev TStats := List (Str × Stats)

/-- Read a key from an opponent map; a missing key reads as the zero tally
(the value the defaultdict would create). -/
def lookupTally : Stats → Str → Tally
  | [], _ => Tally.zero
  | (k, v) :: rest, key => if k = key then v else lookupTally rest key

/-- Mutate the tally at a key, creating the zero tally first when the key is
absent (defaultdict behaviour; new keys go to the end, as in CPython). -/
def updateTally : Stats → Str → (Tally → Tally) → Stats
  | [], key, f => [(key, f Tally.zero)]
  | (k, v) :: rest, key, f =>
    if k = key then (k, f v) :: rest else (k, v) :: updateTally rest key f

/-- Read a bucket from `tournament_stats`; missing buckets read as empty. -/
def lookupBucket : TStats → Str → Stats
  | [], _ => []
  | (k, v) :: rest, key => if k = key then v else lookupBucket rest key

/-- Mutate a bucket, creating it empty first when absent. -/
def updateBucket : TStats → Str → (Stats → Stats) → TStats
  | [], key, f => [(key, f [])]
  | (k, v) :: rest, key, f =>
    if k = key then (k, f v) :: rest else (k, v) :: updateBucket rest key f

/-- `self.tournament_stats[label][opp] += ...`: get-or-create the bucket,
then get-or-create and mutate the tally inside it. -/
def bumpBucket (t : TStats) (label opp : Str) (f : Tally → Tally) : TStats :=
  updateBucket t label (fun s => updateTally s opp f)

/-- Read one tally out of `tournament_stats`. -/
def lookup2 (t : TStats) (label opp : Str) : Tally :=
  lookupTally (lookupBucket t label) opp

/-- `self.tournament_types.add(main_type)` (a Python set; membership only). -/
def addType (ts : List Str) (x : Str) : List Str :=
  if x ∈ ts then ts else ts ++ [x]

def bumpTotal (r : Tally) : Tally := { r with total_matches := r.total_matches + 1 }
def bumpWins (r : Tally) : Tally := { r with wins := r.wins + 1 }
def bumpLosses (r : Tally) : Tally := { r with losses := r.losses + 1 }

/-- The participant-selection loop of both aggregators: the LAST user whose
`user_id` equals the tracked id becomes `myself`, the LAST other user becomes
`opponent` (each `for` iteration overwrites the previous assignment). -/
def pickUsers (users : List User) : Option User × Option User :=
  users.foldl
    (fun p u => if u.user_id = some player_id then (some u, p.2) else (p.1, some u))
    (none, none)

/-- `match.get('match_user_details', {}).get('users', [])`. -/
def usersOf (m : MatchRec) : List User :=
  ((m.match_user_details.getD ⟨none⟩).users).getD []

/-- Tournament-name resolution in `cricket_head_to_head.py` (line 102):
the flat field `tournament_name`, defaulting to `'Unknown'`. -/
def resolveNameH2H (m : MatchRec) : Str :=
  m.tournament_name.getD ("Unknown".toList)

/-- Tournament-name resolution in `cricket_report_generator.py` (lines
107-113): the nested `tournament_match_details.tournament_type_details.
tournament_name` path, each level defaulting, final default `'Unknown'`. -/
def resolveNameRG (m : MatchRec) : Str :=
  (((m.tournament_match_details.getD ⟨none⟩).tournament_type_details.getD
      ⟨none⟩).tournament_name).getD ("Unknown".toList)

/-- Aggregate state of `CricketHeadToHead`. -/
structure AggState where
  head_to_head_stats : Stats
  tournament_stats : TStats
  tournament_types : List Str
deriving DecidableEq

/-- The freshly-initialised `CricketHeadToHead` aggregate state. -/
def initState : AggState := ⟨[], [], []⟩

/-- One iteration of the loop in `calculate_head_to_head` (lines 77-122). -/
def stepH2H (st : AggState) (m : MatchRec) : AggState :=
  if m.status ≠ some ("COMPLETED".toList) ∨ m.match_mode ≠ some ("DUAL_PLAYER".toList) then
    st
  else
    match pickUsers (usersOf m) with
    | (some myself, some opponent) =>
      let opponent_name := opponent.name.getD ("Unknown".toList)
      let my_result := myself.result
      let tournament_name := resolveNameH2H m
      let main_type := (parse_tournament_type tournament_name).1
      let subtype := (parse_tournament_type tournament_name).2
      let types := addType st.tournament_types main_type
      let h := updateTally st.head_to_head_stats opponent_name bumpTotal
      let t := bumpBucket (bumpBucket st.tournament_stats main_type opponent_name bumpTotal)
        subtype opponent_name bumpTotal
      if my_result = some ("WIN".toList) then
        ⟨updateTally h opponent_name bumpWins,
         bumpBucket (bumpBucket t main_type opponent_name bumpWins)
           subtype opponent_name bumpWins,
         types⟩
      else if my_result = some ("LOSS".toList) then
        ⟨updateTally h opponent_name bumpLosses,
         bumpBucket (bumpBucket t main_type opponent_name bumpLosses)
           subtype opponent_name bumpLosses,
         types⟩
      else ⟨h, t, types⟩
    | _ => st

/-- `calculate_head_to_head` over an already-loaded match list. -/
def calculate_head_to_head (ms : List MatchRec) : AggState :=
  ms.foldl stepH2H initState

/-- Aggregate state of `CricketReportGenerator` (adds the profile-picture
bookkeeping). -/
structure AggStateRG where
  player_pic_url : Str
  head_to_head_stats : Stats
  tournament_stats : TStats
  tournament_types : List Str
  opponent_pics : List (Str × Str)
deriving DecidableEq

/-- The freshly-initialised `CricketReportGenerator` aggregate state. -/
def initStateRG : AggStateRG := ⟨[], [], [], [], []⟩

/-- One iteration of the loop in `calculate_statistics` (lines 76-133). -/
def stepRG (st : AggStateRG) (m : MatchRec) : AggStateRG :=
  if m.status ≠ some ("COMPLETED".toList) ∨ m.match_mode ≠ some ("DUAL_PLAYER".toList) then
    st
  else
    match pickUsers (usersOf m) with
    | (some myself, some opponent) =>
      let opponent_name := opponent.name.getD ("Unknown".toList)
      let my_result := myself.result
      let ppu := if st.player_pic_url.isEmpty then myself.pic_url.getD [] else st.player_pic_url
      let pics := if st.opponent_pics.any (fun p => p.1 = opponent_name) then st.opponent_pics
        else st.opponent_pics ++ [(opponent_name, opponent.pic_url.getD [])]
      let tournament_name := resolveNameRG m
      let main_type := (parse_tournament_type_rg tournament_name).1
      let subtype := (parse_tournament_type_rg tournament_name).2
      let types := addType st.tournament_types main_type
      let h := updateTally st.head_to_head_stats opponent_name bumpTotal
      let t := bumpBucket (bumpBucket st.tournament_stats main_type opponent_name bumpTotal)
        subtype opponent_name bumpTotal
      if my_result = some ("WIN".toList) then
        ⟨ppu, updateTally h opponent_name bumpWins,
         bumpBucket (bumpBucket t main_type opponent_name bumpWins)
           subtype opponent_name bumpWins,
         types, pics⟩
      else if my_result = some ("LOSS".toList) then
        ⟨ppu, updateTally h opponent_name bumpLosses,
         bumpBucket (bumpBucket t main_type opponent_name bumpLosses)
           subtype opponent_name bumpLosses,
         types, pics⟩
      else ⟨ppu, h, t, types, pics⟩
    | _ => st

/-- `calculate_statistics` over an already-loaded match list. -/
def calculate_statistics (ms : List MatchRec) : AggStateRG :=
  ms.foldl stepRG initStateRG

theorem lookupTally_updateTally_self (s : Stats) (k : Str) (f : Tally → Tally) :
    lookupTally (updateTally s k f) k = f (lookupTally s k) := by
  induction s with
  | nil => simp [updateTally, lookupTally]
  | cons p rest ih =>
    obtain ⟨k2, v⟩ := p
    by_cases h : k2 = k <;> simp [updateTally, lookupTally, h, ih]

theorem lookupTally_updateTally_ne (s : Stats) (k k2 : Str) (f : Tally → Tally)
    (h : k2 ≠ k) :
    lookupTally (updateTally s k f) k2 = lookupTally s k2 := by
  induction s with
  | nil => simp [updateTally, lookupTally, Ne.symm h]
  | cons p rest ih =>
    obtain ⟨k3, v⟩ := p
    by_cases h3 : k3 = k
    · subst h3
      simp [updateTally, lookupTally, h, Ne.symm h]
    · by_cases h4 : k3 = k2 <;> simp [updateTally, lookupTally, h3, h4, h, Ne.symm h, ih]

theorem lookupBucket_updateBucket_self (t : TStats) (k : Str) (f : Stats → Stats) :
    lookupBucket (updateBucket t k f) k = f (lookupBucket t k) := by
  induction t with
  | nil => simp [updateBucket, lookupBucket]
  | cons p rest ih =>
    obtain ⟨k2, v⟩ := p
    by_cases h : k2 = k <;> simp [updateBucket, lookupBucket, h, ih]

theorem lookupBucket_updateBucket_ne (t : TStats) (k k2 : Str) (f : Stats → Stats)
    (h : k2 ≠ k) :
    lookupBucket (updateBucket t k f) k2 = lookupBucket t k2 := by
  induction t with
  | nil => simp [updateBucket, lookupBucket, Ne.symm h]
  | cons p rest ih =>
    obtain ⟨k3, v⟩ := p
    by_cases h3 : k3 = k
    · subst h3
      simp [updateBucket, lookupBucket, h, Ne.symm h]
    · by_cases h4 : k3 = k2 <;> simp [updateBucket, lookupBucket, h3, h4, h, Ne.symm h, ih]

/-- Effect of one `tournament_stats[label][opp] += ...` on an arbitrary read.
The then-branch is phrased over the same read `lookup2 t lbl2 opp2` so that
iterated bumps stay comparable. -/
theorem lookup2_bumpBucket (t : TStats) (label opp lbl2 opp2 : Str) (f : Tally → Tally) :
    lookup2 (bumpBucket t label opp f) lbl2 opp2 =
      if lbl2 = label ∧ opp2 = opp then f (lookup2 t lbl2 opp2) else lookup2 t lbl2 opp2 := by
  unfold lookup2 bumpBucket
  by_cases hl : lbl2 = label
  · subst hl
    rw [lookupBucket_updateBucket_self]
    by_cases ho : opp2 = opp
    · subst ho
      rw [lookupTally_updateTally_self, if_pos ⟨rfl, rfl⟩]
    · rw [lookupTally_updateTally_ne _ _ _ _ ho, if_neg (fun hx => ho hx.2)]
  · rw [lookupBucket_updateBucket_ne _ _ _ _ hl, if_neg (fun hx => hl hx.1)]

/-- The `myself` selected by the participant loop. -/
def selfOf (m : MatchRec) : Option User := (pickUsers (usersOf m)).1

/-- The `opponent` selected by the participant loop. -/
def oppOf (m : MatchRec) : Option User := (pickUsers (usersOf m)).2

/-- A match passes all the aggregation filters: status, mode, and both a
`myself` and an `opponent` found among the participants. -/
def Qualifies (m : MatchRec) : Prop :=
  m.status = some ("COMPLETED".toList) ∧ m.match_mode = some ("DUAL_PLAYER".toList) ∧
    (selfOf m).isSome ∧ (oppOf m).isSome

instance : DecidablePred Qualifies := fun m => by
  unfold Qualifies
  infer_instance

/-- `opponent.get('name', 'Unknown')` for the selected opponent. -/
def oppNameOf (m : MatchRec) : Str :=
  match oppOf m with
  | some u => u.name.getD ("Unknown".toList)
  | none => "Unknown".toList

/-- `myself.get('result')` for the selected self participant. -/
def resultOf (m : MatchRec) : Option Str :=
  match selfOf m with
  | some u => u.result
  | none => none

/-- mainType assigned to a match by `calculate_head_to_head`. -/
def mainOfH2H (m : MatchRec) : Str := (parse_tournament_type (resolveNameH2H m)).1

/-- subType assigned to a match by `calculate_head_to_head`. -/
def subOfH2H (m : MatchRec) : Str := (parse_tournament_type (resolveNameH2H m)).2

/-- Effect of one `calculate_head_to_head` iteration on the global map. -/
theorem stepH2H_head (st : AggState) (m : MatchRec) (n : Str) :
    lookupTally (stepH2H st m).head_to_head_stats n =
      if Qualifies m ∧ oppNameOf m = n then
        { wins := (lookupTally st.head_to_head_stats n).wins
            + (if resultOf m = some ("WIN".toList) then 1 else 0),
          losses := (lookupTally st.head_to_head_stats n).losses
            + (if resultOf m = some ("LOSS".toList) then 1 else 0),
          total_matches := (lookupTally st.head_to_head_stats n).total_matches + 1 }
      else lookupTally st.head_to_head_stats n := by
  by_cases hC : m.status ≠ some ("COMPLETED".toList) ∨ m.match_mode ≠ some ("DUAL_PLAYER".toList)
  · unfold stepH2H
    rw [if_pos hC,
      if_neg (fun hx => hC.elim (fun hy => hy hx.1.1) (fun hy => hy hx.1.2.1))]
  · push_neg at hC
    unfold stepH2H
    rw [if_neg (by push_neg; exact hC)]
    rcases hpick : pickUsers (usersOf m) with ⟨a, b⟩
    have hself : selfOf m = a := by rw [selfOf, hpick]
    have hopp : oppOf m = b := by rw [oppOf, hpick]
    cases a with
    | none =>
      cases b <;>
        rw [if_neg (fun hx => by
          have := hx.1.2.2.1
          rw [hself] at this
          simp at this)]
    | some myself =>
      cases b with
      | none =>
        rw [if_neg (fun hx => by
          have := hx.1.2.2.2
          rw [hopp] at this
          simp at this)]
      | some opponent =>
        have hq : Qualifies m := ⟨hC.1, hC.2, by rw [hself]; rfl, by rw [hopp]; rfl⟩
        have hon : oppNameOf m = opponent.name.getD ("Unknown".toList) := by
          rw [oppNameOf, hopp]
        have hres : resultOf m = myself.result := by
          rw [resultOf, hself]
        dsimp only
        by_cases hw : myself.result = some ("WIN".toList)
        · rw [if_pos hw]
          dsimp only
          by_cases hn : oppNameOf m = n
          · rw [if_pos ⟨hq, hn⟩, ← hon, hn, lookupTally_updateTally_self,
              lookupTally_updateTally_self]
            rw [hres, if_pos hw, if_neg (by rw [hw]; decide)]
            rfl
          · rw [if_neg (fun hx => hn hx.2),
              lookupTally_updateTally_ne _ _ _ _ (fun he => hn (hon.trans he.symm)),
              lookupTally_updateTally_ne _ _ _ _ (fun he => hn (hon.trans he.symm))]
        · by_cases hl : myself.result = some ("LOSS".toList)
          · rw [if_neg hw, if_pos hl]
            dsimp only
            by_cases hn : oppNameOf m = n
            · rw [if_pos ⟨hq, hn⟩, ← hon, hn, lookupTally_updateTally_self,
                lookupTally_updateTally_self]
              rw [hres, if_pos hl, if_neg (by rw [hl]; decide)]
              rfl
            · rw [if_neg (fun hx => hn hx.2),
                lookupTally_updateTally_ne _ _ _ _ (fun he => hn (hon.trans he.symm)),
                lookupTally_updateTally_ne _ _ _ _ (fun he => hn (hon.trans he.symm))]
          · rw [if_neg hw, if_neg hl]
            dsimp only
            by_cases hn : oppNameOf m = n
            · rw [if_pos ⟨hq, hn⟩, ← hon, hn, lookupTally_updateTally_self]
              rw [hres, if_neg hw, if_neg hl]
              rfl
            · rw [if_neg (fun hx => hn hx.2),
                lookupTally_updateTally_ne _ _ _ _ (fun he => hn (hon.trans he.symm))]

set_option maxRecDepth 4000 in
/-- Effect of one `calculate_head_to_head` iteration on the bucket maps.
Because mainType bucket and subType bucket live in the SAME dict, one match
contributes `(if b = mainType then 1 else 0) + (if b = subType then 1 else 0)`
to the bucket labelled `b`: 2 when the two labels coincide. -/
theorem stepH2H_bucket (st : AggState) (m : MatchRec) (b n : Str) :
    lookup2 (stepH2H st m).tournament_stats b n =
      if Qualifies m ∧ oppNameOf m = n then
        { wins := (lookup2 st.tournament_stats b n).wins
            + (if resultOf m = some ("WIN".toList) then
                (if b = mainOfH2H m then 1 else 0) + (if b = subOfH2H m then 1 else 0)
              else 0),
          losses := (lookup2 st.tournament_stats b n).losses
            + (if resultOf m = some ("LOSS".toList) then
                (if b = mainOfH2H m then 1 else 0) + (if b = subOfH2H m then 1 else 0)
              else 0),
          total_matches := (lookup2 st.tournament_stats b n).total_matches
            + ((if b = mainOfH2H m then 1 else 0) + (if b = subOfH2H m then 1 else 0)) }
      else lookup2 st.tournament_stats b n := by
  by_cases hC : m.status ≠ some ("COMPLETED".toList) ∨ m.match_mode ≠ some ("DUAL_PLAYER".toList)
  · unfold stepH2H
    rw [if_pos hC,
      if_neg (fun hx => hC.elim (fun hy => hy hx.1.1) (fun hy => hy hx.1.2.1))]
  · push_neg at hC
    unfold stepH2H
    rw [if_neg (by push_neg; exact hC)]
    rcases hpick : pickUsers (usersOf m) with ⟨a, c⟩
    have hself : selfOf m = a := by rw [selfOf, hpick]
    have hopp : oppOf m = c := by rw [oppOf, hpick]
    cases a with
    | none =>
      cases c <;>
        rw [if_neg (fun hx => by
          have := hx.1.2.2.1
          rw [hself] at this
          simp at this)]
    | some myself =>
      cases c with
      | none =>
        rw [if_neg (fun hx => by
          have := hx.1.2.2.2
          rw [hopp] at this
          simp at this)]
      | some opponent =>
        have hq : Qualifies m := ⟨hC.1, hC.2, by rw [hself]; rfl, by rw [hopp]; rfl⟩
        have hon : oppNameOf m = opponent.name.getD ("Unknown".toList) := by
          rw [oppNameOf, hopp]
        have hres : resultOf m = myself.result := by
          rw [resultOf, hself]
        dsimp only
        by_cases hw : myself.result = some ("WIN".toList)
        · rw [if_pos hw]
          dsimp only
          by_cases hn : oppNameOf m = n
          · rw [if_pos ⟨hq, hn⟩, hon.symm.trans hn, hres,
              if_pos hw, if_neg (show ¬myself.result = some ("LOSS".toList) by rw [hw]; decide)]
            simp only [lookup2_bumpBucket, mainOfH2H, subOfH2H, eq_self_iff_true, and_true]
            clear hC hself hopp hpick hq hon hres hw hn
            split_ifs <;> first
              | rfl
              | (ext <;> dsimp only [bumpTotal, bumpWins, bumpLosses] <;> omega)
          · have hOPN : ¬ n = opponent.name.getD ("Unknown".toList) :=
              fun he => hn (hon.trans he.symm)
            rw [if_neg (fun hx => hn hx.2),
              lookup2_bumpBucket, if_neg (fun hx => hOPN hx.2),
              lookup2_bumpBucket, if_neg (fun hx => hOPN hx.2),
              lookup2_bumpBucket, if_neg (fun hx => hOPN hx.2),
              lookup2_bumpBucket, if_neg (fun hx => hOPN hx.2)]
        · by_cases hl : myself.result = some ("LOSS".toList)
          · rw [if_neg hw, if_pos hl]
            dsimp only
            by_cases hn : oppNameOf m = n
            · rw [if_pos ⟨hq, hn⟩, hon.symm.trans hn, hres,
                if_pos hl, if_neg (show ¬myself.result = some ("WIN".toList) by rw [hl]; decide)]
              simp only [lookup2_bumpBucket, mainOfH2H, subOfH2H, eq_self_iff_true, and_true]
              clear hC hself hopp hpick hq hon hres hw hl hn
              split_ifs <;> first
                | rfl
                | (ext <;> dsimp only [bumpTotal, bumpWins, bumpLosses] <;> omega)
            · have hOPN : ¬ n = opponent.name.getD ("Unknown".toList) :=
                fun he => hn (hon.trans he.symm)
              rw [if_neg (fun hx => hn hx.2),
                lookup2_bumpBucket, if_neg (fun hx => hOPN hx.2),
                lookup2_bumpBucket, if_neg (fun hx => hOPN hx.2),
                lookup2_bumpBucket, if_neg (fun hx => hOPN hx.2),
                lookup2_bumpBucket, if_neg (fun hx => hOPN hx.2)]
          · rw [if_neg hw, if_neg hl]
            dsimp only
            by_cases hn : oppNameOf m = n
            · rw [if_pos ⟨hq, hn⟩, hon.symm.trans hn, hres,
                if_neg hw, if_neg hl]
              simp only [lookup2_bumpBucket, mainOfH2H, subOfH2H, eq_self_iff_true, and_true]
              clear hC hself hopp hpick hq hon hres hw hl hn
              split_ifs <;> first
                | rfl
                | (ext <;> dsimp only [bumpTotal, bumpWins, bumpLosses] <;> omega)
            · have hOPN : ¬ n = opponent.name.getD ("Unknown".toList) :=
                fun he => hn (hon.trans he.symm)
              rw [if_neg (fun hx => hn hx.2),
                lookup2_bumpBucket, if_neg (fun hx => hOPN hx.2),
                lookup2_bumpBucket, if_neg (fun hx => hOPN hx.2)]

/-- A match failing any aggregation filter leaves the `CricketHeadToHead`
state fully unchanged. -/
theorem stepH2H_skip (st : AggState) (m : MatchRec) (h : ¬ Qualifies m) :
    stepH2H st m = st := by
  unfold stepH2H
  by_cases hC : m.status ≠ some ("COMPLETED".toList) ∨ m.match_mode ≠ some ("DUAL_PLAYER".toList)
  · rw [if_pos hC]
  · push_neg at hC
    rw [if_neg (by push_neg; exact hC)]
    rcases hpick : pickUsers (usersOf m) with ⟨a, c⟩
    have hself : selfOf m = a := by rw [selfOf, hpick]
    have hopp : oppOf m = c := by rw [oppOf, hpick]
    cases a with
    | none => cases c <;> rfl
    | some myself =>
      cases c with
      | none => rfl
      | some opponent =>
        exact absurd ⟨hC.1, hC.2, by rw [hself]; rfl, by rw [hopp]; rfl⟩ h

/-- A match failing any aggregation filter leaves the `CricketReportGenerator`
state fully unchanged (its profile-picture bookkeeping happens after the
participant check, so it is skipped too). -/
theorem stepRG_skip (st : AggStateRG) (m : MatchRec) (h : ¬ Qualifies m) :
    stepRG st m = st := by
  unfold stepRG
  by_cases hC : m.status ≠ some ("COMPLETED".toList) ∨ m.match_mode ≠ some ("DUAL_PLAYER".toList)
  · rw [if_pos hC]
  · push_neg at hC
    rw [if_neg (by push_neg; exact hC)]
    rcases hpick : pickUsers (usersOf m) with ⟨a, c⟩
    have hself : selfOf m = a := by rw [selfOf, hpick]
    have hopp : oppOf m = c := by rw [oppOf, hpick]
    cases a with
    | none => cases c <;> rfl
    | some myself =>
      cases c with
      | none => rfl
      | some opponent =>
        exact absurd ⟨hC.1, hC.2, by rw [hself]; rfl, by rw [hopp]; rfl⟩ h

theorem getLast?_cons_or {α : Type} (a : α) (l : List α) :
    (a :: l).getLast? = Option.or l.getLast? (some a) := by
  induction l generalizing a with
  | nil => rfl
  | cons b t ih =>
    rw [List.getLast?_cons_cons, ih b]
    cases hgl : t.getLast? <;> rfl

/-- The participant loop keeps the LAST matching and LAST non-matching user:
its fold equals last-of-filter on each component. -/
theorem foldl_pick_eq (l : List User) (a c : Option User) :
    l.foldl (fun p u => if u.user_id = some player_id then (some u, p.2) else (p.1, some u)) (a, c)
      = (Option.or ((l.filter (fun u => decide (u.user_id = some player_id))).getLast?) a,
         Option.or ((l.filter (fun u => !decide (u.user_id = some player_id))).getLast?) c) := by
  induction l generalizing a c with
  | nil => rfl
  | cons u t ih =>
    rw [List.foldl_cons]
    dsimp only
    by_cases hu : u.user_id = some player_id
    · rw [if_pos hu, ih,
        List.filter_cons_of_pos (by simpa using hu),
        List.filter_cons_of_neg (by simpa using hu),
        getLast?_cons_or, Option.or_assoc]
      rfl
    · rw [if_neg hu, ih,
        List.filter_cons_of_neg (by simpa using hu),
        List.filter_cons_of_pos (by simpa using hu),
        getLast?_cons_or, Option.or_assoc]
      rfl

/-- `pickUsers` in closed form: the two components are the last tracked and
last non-tracked participants in list order. -/
theorem pickUsers_eq (l : List User) :
    pickUsers l
      = ((l.filter (fun u => decide (u.user_id = some player_id))).getLast?,
         (l.filter (fun u => !decide (u.user_id = some player_id))).getLast?) := by
  unfold pickUsers
  rw [foldl_pick_eq, Option.or_none, Option.or_none]

/-- Concrete fixture: the tracked player as a participant entry. -/
def userSelf : User :=
  { user_id := some player_id, name := some ("Prasanna Nivas".toList),
    result := some ("WIN".toList), pic_url := none }

/-- Concrete fixture: an opponent named `"A"`. -/
def userOppA : User :=
  { user_id := some ("opp-1".toList), name := some ("A".toList),
    result := some ("LOSS".toList), pic_url := none }

/-- Concrete fixture: a completed dual-player match in a tournament literally
named `"Other"`, for which mainType = subType = `"Other"`. -/
def mOther : MatchRec :=
  { status := some ("COMPLETED".toList), match_mode := some ("DUAL_PLAYER".toList),
    match_user_details := some ⟨some [userSelf, userOppA]⟩,
    tournament_name := some ("Other".toList), tournament_match_details := none }

/-- Concrete fixture: a completed dual-player match in `"iBC 360 - 250 Blitz"`,
whose mainType `"iBC 360"` and subType `"iBC 360 - 250"` differ. -/
def m360 : MatchRec :=
  { status := some ("COMPLETED".toList), match_mode := some ("DUAL_PLAYER".toList),
    match_user_details := some ⟨some [userSelf, userOppA]⟩,
    tournament_name := some ("iBC 360 - 250 Blitz".toList),
    tournament_match_details := none }

/-- C1 counterexample: the qualifying match `mOther` is classified with
mainType = subType = `"Other"`, so the `"Other"` bucket record (one single
`OpponentRecord`, because both bucket labels index the same dict) has its
totalMatches raised by 2, not by 1 — only two distinct records are touched,
one of them twice. -/
theorem claim_C1_counterexample :
    Qualifies mOther ∧
    mainOfH2H mOther = subOfH2H mOther ∧
    lookup2 initState.tournament_stats ("Other".toList) ("A".toList) = Tally.zero ∧
    (lookup2 (stepH2H initState mOther).tournament_stats
      ("Other".toList) ("A".toList)).total_matches = 2 := by
  refine ⟨?_, ?_, ?_, ?_⟩ <;> decide

/-- C1 (amended): a qualifying match increments the global record of the
opponent name by exactly 1 (other names untouched); when mainType ≠ subType it
also increments the mainType-bucket and subType-bucket records by exactly 1
each, all other bucket reads unchanged — three records, each once. When
mainType = subType (tournament name exactly `"Other"`), the single shared
bucket record is incremented twice instead. -/
theorem claim_C1_amended (st : AggState) (m : MatchRec) (hq : Qualifies m) :
    (lookupTally (stepH2H st m).head_to_head_stats (oppNameOf m)).total_matches
      = (lookupTally st.head_to_head_stats (oppNameOf m)).total_matches + 1 ∧
    (∀ n, n ≠ oppNameOf m →
      lookupTally (stepH2H st m).head_to_head_stats n
        = lookupTally st.head_to_head_stats n) ∧
    (mainOfH2H m ≠ subOfH2H m →
      (lookup2 (stepH2H st m).tournament_stats (mainOfH2H m) (oppNameOf m)).total_matches
        = (lookup2 st.tournament_stats (mainOfH2H m) (oppNameOf m)).total_matches + 1 ∧
      (lookup2 (stepH2H st m).tournament_stats (subOfH2H m) (oppNameOf m)).total_matches
        = (lookup2 st.tournament_stats (subOfH2H m) (oppNameOf m)).total_matches + 1) ∧
    (mainOfH2H m = subOfH2H m →
      (lookup2 (stepH2H st m).tournament_stats (mainOfH2H m) (oppNameOf m)).total_matches
        = (lookup2 st.tournament_stats (mainOfH2H m) (oppNameOf m)).total_matches + 2) ∧
    (∀ b n, ¬((b = mainOfH2H m ∨ b = subOfH2H m) ∧ n = oppNameOf m) →
      lookup2 (stepH2H st m).tournament_stats b n = lookup2 st.tournament_stats b n) := by
  refine ⟨?_, ?_, ?_, ?_, ?_⟩
  · rw [stepH2H_head, if_pos ⟨hq, rfl⟩]
  · intro n hn
    rw [stepH2H_head, if_neg (fun hx => hn hx.2.symm)]
  · intro hne
    constructor
    · rw [stepH2H_bucket, if_pos ⟨hq, rfl⟩]
      dsimp only
      rw [if_pos rfl, if_neg hne]
    · rw [stepH2H_bucket, if_pos ⟨hq, rfl⟩]
      dsimp only
      rw [if_pos rfl, if_neg (fun hx => hne hx.symm)]
  · intro heq
    rw [stepH2H_bucket, if_pos ⟨hq, rfl⟩]
    dsimp only
    rw [if_pos rfl, if_pos heq]
  · intro b n hbn
    rw [stepH2H_bucket]
    by_cases hcond : Qualifies m ∧ oppNameOf m = n
    · rw [if_pos hcond]
      have hbm : ¬ b = mainOfH2H m := fun hb => hbn ⟨Or.inl hb, hcond.2.symm⟩
      have hbs : ¬ b = subOfH2H m := fun hb => hbn ⟨Or.inr hb, hcond.2.symm⟩
      rw [if_neg hbm, if_neg hbs]
      ext <;> dsimp only <;> first
        | omega
        | (split_ifs <;> omega)
    · rw [if_neg hcond]

/-- Witness for C1 at the qualifying match `m360` and the fresh state. -/
theorem claim_C1_witness :
    (lookupTally (stepH2H initState m360).head_to_head_stats (oppNameOf m360)).total_matches
      = (lookupTally initState.head_to_head_stats (oppNameOf m360)).total_matches + 1 ∧
    (∀ n, n ≠ oppNameOf m360 →
      lookupTally (stepH2H initState m360).head_to_head_stats n
        = lookupTally initState.head_to_head_stats n) ∧
    (mainOfH2H m360 ≠ subOfH2H m360 →
      (lookup2 (stepH2H initState m360).tournament_stats (mainOfH2H m360)
          (oppNameOf m360)).total_matches
        = (lookup2 initState.tournament_stats (mainOfH2H m360)
            (oppNameOf m360)).total_matches + 1 ∧
      (lookup2 (stepH2H initState m360).tournament_stats (subOfH2H m360)
          (oppNameOf m360)).total_matches
        = (lookup2 initState.tournament_stats (subOfH2H m360)
            (oppNameOf m360)).total_matches + 1) ∧
    (mainOfH2H m360 = subOfH2H m360 →
      (lookup2 (stepH2H initState m360).tournament_stats (mainOfH2H m360)
          (oppNameOf m360)).total_matches
        = (lookup2 initState.tournament_stats (mainOfH2H m360)
            (oppNameOf m360)).total_matches + 2) ∧
    (∀ b n, ¬((b = mainOfH2H m360 ∨ b = subOfH2H m360) ∧ n = oppNameOf m360) →
      lookup2 (stepH2H initState m360).tournament_stats b n
        = lookup2 initState.tournament_stats b n) :=
  claim_C1_amended initState m360 (by decide)

/-- C6: a match failing any filter (wrong status, wrong mode, no participant
with the tracked id, or no participant with a different id) leaves both
aggregators' entire state unchanged — no incomplete updates. -/
theorem claim_C6_skip_leaves_state_unchanged (stH : AggState) (stR : AggStateRG)
    (m : MatchRec)
    (h : m.status ≠ some ("COMPLETED".toList)
      ∨ m.match_mode ≠ some ("DUAL_PLAYER".toList)
      ∨ (∀ u ∈ usersOf m, ¬ u.user_id = some player_id)
      ∨ (∀ u ∈ usersOf m, u.user_id = some player_id)) :
    stepH2H stH m = stH ∧ stepRG stR m = stR := by
  have hnq : ¬ Qualifies m := by
    rcases h with h | h | h | h
    · exact fun hq => h hq.1
    · exact fun hq => h hq.2.1
    · intro hq
      have hx := hq.2.2.1
      rw [selfOf, pickUsers_eq] at hx
      rw [List.filter_eq_nil_iff.mpr (fun u hu => by simpa using h u hu)] at hx
      simp at hx
    · intro hq
      have hx := hq.2.2.2
      rw [oppOf, pickUsers_eq] at hx
      rw [show (usersOf m).filter (fun u => !decide (u.user_id = some player_id)) = []
        from List.filter_eq_nil_iff.mpr (fun u hu => by simp [h u hu])] at hx
      simp at hx
  exact ⟨stepH2H_skip stH m hnq, stepRG_skip stR m hnq⟩

/-- Concrete fixture: a match whose status is not COMPLETED. -/
def mSkip : MatchRec :=
  { status := some ("IN_PROGRESS".toList), match_mode := some ("DUAL_PLAYER".toList),
    match_user_details := some ⟨some [userSelf, userOppA]⟩,
    tournament_name := some ("Other".toList), tournament_match_details := none }

/-- Witness for C6 at the in-progress match `mSkip`. -/
theorem claim_C6_witness :
    stepH2H initState mSkip = initState ∧ stepRG initStateRG mSkip = initStateRG :=
  claim_C6_skip_leaves_state_unchanged initState initStateRG mSkip (Or.inl (by decide))

/-- Concrete fixture: a second opponent named `"B"`. -/
def userOppB : User :=
  { user_id := some ("opp-2".toList), name := some ("B".toList),
    result := some ("WIN".toList), pic_url := none }

/-- Concrete fixture: a completed dual-player match with THREE participants;
the opponent selected is the last non-tracked one, `"B"`. -/
def mMulti : MatchRec :=
  { status := some ("COMPLETED".toList), match_mode := some ("DUAL_PLAYER".toList),
    match_user_details := some ⟨some [userOppA, userSelf, userOppB]⟩,
    tournament_name := some ("Other".toList), tournament_match_details := none }

/-- C10: a completed dual-player match with more than two participants is NOT
skipped; the aggregator selects the last participant whose user_id equals the
tracked id as self and the last one with a different id as opponent, and
counts the match exactly once against that opponent's name (other global
records untouched). -/
theorem claim_C10_multi_participant_selection (st : AggState) (m : MatchRec)
    (me op : User)
    (hs : m.status = some ("COMPLETED".toList))
    (hm : m.match_mode = some ("DUAL_PLAYER".toList))
    (hlen : 2 < (usersOf m).length)
    (hme : ((usersOf m).filter
        (fun u => decide (u.user_id = some player_id))).getLast? = some me)
    (hop : ((usersOf m).filter
        (fun u => !decide (u.user_id = some player_id))).getLast? = some op) :
    pickUsers (usersOf m) = (some me, some op) ∧
    (lookupTally (stepH2H st m).head_to_head_stats
        (op.name.getD ("Unknown".toList))).total_matches
      = (lookupTally st.head_to_head_stats
          (op.name.getD ("Unknown".toList))).total_matches + 1 ∧
    (∀ n, n ≠ op.name.getD ("Unknown".toList) →
      lookupTally (stepH2H st m).head_to_head_stats n
        = lookupTally st.head_to_head_stats n) := by
  have hpick : pickUsers (usersOf m) = (some me, some op) := by
    rw [pickUsers_eq, hme, hop]
  have hq : Qualifies m :=
    ⟨hs, hm, by rw [selfOf, hpick]; rfl, by rw [oppOf, hpick]; rfl⟩
  have hon : oppNameOf m = op.name.getD ("Unknown".toList) := by
    rw [oppNameOf, oppOf, hpick]
  refine ⟨hpick, ?_, ?_⟩
  · rw [stepH2H_head, if_pos ⟨hq, hon⟩]
  · intro n hn
    rw [stepH2H_head, if_neg (fun hx => hn (hon.symm.trans hx.2).symm)]

/-- Witness for C10 at the three-participant match `mMulti`. -/
theorem claim_C10_witness :
    pickUsers (usersOf mMulti) = (some userSelf, some userOppB) ∧
    (lookupTally (stepH2H initState mMulti).head_to_head_stats
        (userOppB.name.getD ("Unknown".toList))).total_matches
      = (lookupTally initState.head_to_head_stats
          (userOppB.name.getD ("Unknown".toList))).total_matches + 1 ∧
    (∀ n, n ≠ userOppB.name.getD ("Unknown".toList) →
      lookupTally (stepH2H initState mMulti).head_to_head_stats n
        = lookupTally initState.head_to_head_stats n) :=
  claim_C10_multi_participant_selection initState mMulti userSelf userOppB
    (by decide) (by decide) (by decide) (by decide) (by decide)

/-- A match counted toward the global record of opponent name `n`. -/
def matchCounted (n : Str) (m : MatchRec) : Bool :=
  decide (Qualifies m) && decide (oppNameOf m = n)

/-- A counted match whose self result was WIN. -/
def matchWon (n : Str) (m : MatchRec) : Bool :=
  matchCounted n m && decide (resultOf m = some ("WIN".toList))

/-- A counted match whose self result was LOSS. -/
def matchLost (n : Str) (m : MatchRec) : Bool :=
  matchCounted n m && decide (resultOf m = some ("LOSS".toList))

/-- A counted match whose self result was neither WIN nor LOSS. -/
def matchOther (n : Str) (m : MatchRec) : Bool :=
  matchCounted n m && !decide (resultOf m = some ("WIN".toList))
    && !decide (resultOf m = some ("LOSS".toList))

/-- Closed form of the global head-to-head map after folding any match list
from any start state: each field is the start value plus a count of matches. -/
theorem foldH2H_head (ms : List MatchRec) (st : AggState) (n : Str) :
    lookupTally (ms.foldl stepH2H st).head_to_head_stats n =
      { wins := (lookupTally st.head_to_head_stats n).wins + ms.countP (matchWon n),
        losses := (lookupTally st.head_to_head_stats n).losses + ms.countP (matchLost n),
        total_matches := (lookupTally st.head_to_head_stats n).total_matches
          + ms.countP (matchCounted n) } := by
  induction ms generalizing st with
  | nil =>
    ext <;> simp [List.countP_nil]
  | cons m t ih =>
    rw [List.foldl_cons, ih (stepH2H st m), stepH2H_head]
    by_cases hc : Qualifies m ∧ oppNameOf m = n
    · rw [if_pos hc]
      have hcnt : matchCounted n m = true := by
        simp [matchCounted, hc.1, hc.2]
      have hw1 : matchWon n m = decide (resultOf m = some ("WIN".toList)) := by
        simp [matchWon, hcnt]
      have hl1 : matchLost n m = decide (resultOf m = some ("LOSS".toList)) := by
        simp [matchLost, hcnt]
      ext <;> simp [List.countP_cons, hw1, hl1, hcnt] <;>
        first
          | omega
          | (split_ifs <;> omega)
    · rw [if_neg hc]
      have hb : matchCounted n m = false := by
        by_cases h1 : Qualifies m
        · simp [matchCounted, h1]
          exact fun h2 => hc ⟨h1, h2⟩
        · simp [matchCounted, h1]
      have hw0 : matchWon n m = false := by simp [matchWon, hb]
      have hl0 : matchLost n m = false := by simp [matchLost, hb]
      ext <;> simp [List.countP_cons, hw0, hl0, hb]

/-- Closed form of a bucket read after folding any match list from any start
state. A match contributes to bucket `b` once for its mainType and once for
its subType (twice in total when the two labels coincide at `b`). -/
theorem foldH2H_bucket (ms : List MatchRec) (st : AggState) (b n : Str) :
    lookup2 (ms.foldl stepH2H st).tournament_stats b n =
      { wins := (lookup2 st.tournament_stats b n).wins
          + ms.countP (fun m => matchWon n m && decide (b = mainOfH2H m))
          + ms.countP (fun m => matchWon n m && decide (b = subOfH2H m)),
        losses := (lookup2 st.tournament_stats b n).losses
          + ms.countP (fun m => matchLost n m && decide (b = mainOfH2H m))
          + ms.countP (fun m => matchLost n m && decide (b = subOfH2H m)),
        total_matches := (lookup2 st.tournament_stats b n).total_matches
          + ms.countP (fun m => matchCounted n m && decide (b = mainOfH2H m))
          + ms.countP (fun m => matchCounted n m && decide (b = subOfH2H m)) } := by
  induction ms generalizing st with
  | nil => ext <;> simp
  | cons m t ih =>
    rw [List.foldl_cons, ih (stepH2H st m), stepH2H_bucket]
    by_cases hc : Qualifies m ∧ oppNameOf m = n
    · rw [if_pos hc]
      have hcnt : matchCounted n m = true := by
        simp [matchCounted, hc.1, hc.2]
      have hw1 : matchWon n m = decide (resultOf m = some ("WIN".toList)) := by
        simp [matchWon, hcnt]
      have hl1 : matchLost n m = decide (resultOf m = some ("LOSS".toList)) := by
        simp [matchLost, hcnt]
      ext <;> simp [List.countP_cons, hw1, hl1, hcnt] <;>
        first
          | omega
          | (split_ifs <;> first
              | omega
              | (simp_all; omega)
              | simp_all)
    · rw [if_neg hc]
      have hb : matchCounted n m = false := by
        by_cases h1 : Qualifies m
        · simp [matchCounted, h1]
          exact fun h2 => hc ⟨h1, h2⟩
        · simp [matchCounted, h1]
      have hw0 : matchWon n m = false := by simp [matchWon, hb]
      have hl0 : matchLost n m = false := by simp [matchLost, hb]
      ext <;> simp [List.countP_cons, hw0, hl0, hb]

/-- Each counted match is exactly one of won / lost / other, also after
conjunction with any extra predicate. -/
theorem countP_counted_split_and (n : Str) (p : MatchRec → Bool) (ms : List MatchRec) :
    ms.countP (fun m => matchCounted n m && p m)
      = ms.countP (fun m => matchWon n m && p m)
        + ms.countP (fun m => matchLost n m && p m)
        + ms.countP (fun m => matchOther n m && p m) := by
  induction ms with
  | nil => rfl
  | cons m t ih =>
    simp only [List.countP_cons, ih]
    cases hcnt : matchCounted n m with
    | false =>
      have h1 : matchWon n m = false := by simp [matchWon, hcnt]
      have h2 : matchLost n m = false := by simp [matchLost, hcnt]
      have h3 : matchOther n m = false := by simp [matchOther, hcnt]
      simp [h1, h2, h3, hcnt] <;> omega
    | true =>
      by_cases hw : resultOf m = some ("WIN".toList)
      · have h1 : matchWon n m = true := by simp [matchWon, hcnt, hw]
        have h2 : matchLost n m = false := by
          simp only [matchLost, hcnt, Bool.true_and, decide_eq_false_iff_not]
          rw [hw]
          decide
        have h3 : matchOther n m = false := by simp [matchOther, hcnt, hw]
        cases hp2 : p m <;> simp [h1, h2, h3, hcnt, hp2] <;> omega
      · by_cases hl : resultOf m = some ("LOSS".toList)
        · have h1 : matchWon n m = false := by simpa [matchWon, hcnt] using hw
          have h2 : matchLost n m = true := by simpa [matchLost, hcnt] using hl
          have h3 : matchOther n m = false := by simp [matchOther, hcnt, hl]
          cases hp2 : p m <;> simp [h1, h2, h3, hcnt, hp2] <;> omega
        · have h1 : matchWon n m = false := by simpa [matchWon, hcnt] using hw
          have h2 : matchLost n m = false := by simpa [matchLost, hcnt] using hl
          have h3 : matchOther n m = true := by
            simp [matchOther, hcnt]
            exact ⟨hw, hl⟩
          cases hp2 : p m <;> simp [h1, h2, h3, hcnt, hp2] <;> omega

theorem countP_counted_split (n : Str) (ms : List MatchRec) :
    ms.countP (matchCounted n)
      = ms.countP (matchWon n) + ms.countP (matchLost n) + ms.countP (matchOther n) := by
  have h := countP_counted_split_and n (fun _ => true) ms
  simpa using h

/-- Concrete fixture: the tracked player with no result field (a draw or
abandoned result — neither WIN nor LOSS). -/
def userSelfDraw : User :=
  { user_id := some player_id, name := some ("Prasanna Nivas".toList),
    result := none, pic_url := none }

/-- Concrete fixture: a qualifying non-win non-loss match in a tournament
named `"Other"` (mainType = subType = `"Other"`). -/
def mOtherDraw : MatchRec :=
  { status := some ("COMPLETED".toList), match_mode := some ("DUAL_PLAYER".toList),
    match_user_details := some ⟨some [userSelfDraw, userOppA]⟩,
    tournament_name := some ("Other".toList), tournament_match_details := none }

/-- C5 counterexample: after aggregating the single drawn match `mOtherDraw`,
the `"Other"`-bucket record for `"A"` has totalMatches = 2 and wins = losses
= 0, while only ONE counted match with non-WIN/LOSS result contributed to that
record — so totalMatches ≠ wins + losses + (number of such matches). Only the
inequality totalMatches ≥ wins + losses survives for bucket records. -/
theorem claim_C5_counterexample :
    (lookup2 (calculate_head_to_head [mOtherDraw]).tournament_stats
        ("Other".toList) ("A".toList)) = ⟨0, 0, 2⟩ ∧
    [mOtherDraw].countP (fun m => matchOther ("A".toList) m
        && (decide (mainOfH2H m = "Other".toList)
            || decide (subOfH2H m = "Other".toList))) = 1 ∧
    (lookup2 (calculate_head_to_head [mOtherDraw]).tournament_stats
        ("Other".toList) ("A".toList)).total_matches
      ≠ (lookup2 (calculate_head_to_head [mOtherDraw]).tournament_stats
          ("Other".toList) ("A".toList)).wins
        + (lookup2 (calculate_head_to_head [mOtherDraw]).tournament_stats
            ("Other".toList) ("A".toList)).losses
        + [mOtherDraw].countP (fun m => matchOther ("A".toList) m
            && (decide (mainOfH2H m = "Other".toList)
                || decide (subOfH2H m = "Other".toList))) := by
  refine ⟨?_, ?_, ?_⟩ <;> decide

/-- C5 (amended): in the global aggregate, totalMatches = wins + losses +
(number of counted matches with non-WIN/LOSS result), exactly as claimed. In
a bucket record, each counted match contributes once per matching label
(mainType and subType separately — twice when both equal the bucket label), so
totalMatches = wins + losses + (non-WIN/LOSS contributions counted with that
multiplicity). In every record totalMatches ≥ wins + losses. -/
theorem claim_C5_amended (ms : List MatchRec) :
    (∀ n,
      (lookupTally (calculate_head_to_head ms).head_to_head_stats n).total_matches
        = (lookupTally (calculate_head_to_head ms).head_to_head_stats n).wins
          + (lookupTally (calculate_head_to_head ms).head_to_head_stats n).losses
          + ms.countP (matchOther n) ∧
      (lookupTally (calculate_head_to_head ms).head_to_head_stats n).wins
          + (lookupTally (calculate_head_to_head ms).head_to_head_stats n).losses
        ≤ (lookupTally (calculate_head_to_head ms).head_to_head_stats n).total_matches) ∧
    (∀ b n,
      (lookup2 (calculate_head_to_head ms).tournament_stats b n).total_matches
        = (lookup2 (calculate_head_to_head ms).tournament_stats b n).wins
          + (lookup2 (calculate_head_to_head ms).tournament_stats b n).losses
          + (ms.countP (fun m => matchOther n m && decide (b = mainOfH2H m))
             + ms.countP (fun m => matchOther n m && decide (b = subOfH2H m))) ∧
      (lookup2 (calculate_head_to_head ms).tournament_stats b n).wins
          + (lookup2 (calculate_head_to_head ms).tournament_stats b n).losses
        ≤ (lookup2 (calculate_head_to_head ms).tournament_stats b n).total_matches) := by
  constructor
  · intro n
    rw [calculate_head_to_head, foldH2H_head, countP_counted_split n ms]
    dsimp only
    constructor <;> simp [lookupTally, Tally.zero] <;> omega
  · intro b n
    rw [calculate_head_to_head, foldH2H_bucket,
      countP_counted_split_and n (fun m => decide (b = mainOfH2H m)) ms,
      countP_counted_split_and n (fun m => decide (b = subOfH2H m)) ms]
    dsimp only
    constructor <;> simp [lookup2, lookupBucket, lookupTally, Tally.zero] <;> omega

/-- C9: permuting the input match list leaves every global record and every
bucket record (wins, losses, totalMatches) unchanged: the final aggregate
values only depend on per-match counts, which are permutation-invariant. -/
theorem claim_C9_order_invariance (ms1 ms2 : List MatchRec) (hp : ms1.Perm ms2) :
    (∀ n, lookupTally (calculate_head_to_head ms1).head_to_head_stats n
        = lookupTally (calculate_head_to_head ms2).head_to_head_stats n) ∧
    (∀ b n, lookup2 (calculate_head_to_head ms1).tournament_stats b n
        = lookup2 (calculate_head_to_head ms2).tournament_stats b n) := by
  constructor
  · intro n
    rw [calculate_head_to_head, calculate_head_to_head, foldH2H_head, foldH2H_head]
    simp only [hp.countP_eq]
  · intro b n
    rw [calculate_head_to_head, calculate_head_to_head, foldH2H_bucket, foldH2H_bucket]
    simp only [hp.countP_eq]

/-- Witness for C9 on the two-element list `[mOtherDraw, m360]` and its swap. -/
theorem claim_C9_witness :
    lookupTally (calculate_head_to_head [mOtherDraw, m360]).head_to_head_stats
        ("A".toList)
      = lookupTally (calculate_head_to_head [m360, mOtherDraw]).head_to_head_stats
          ("A".toList) ∧
    lookup2 (calculate_head_to_head [mOtherDraw, m360]).tournament_stats
        ("iBC 360".toList) ("A".toList)
      = lookup2 (calculate_head_to_head [m360, mOtherDraw]).tournament_stats
          ("iBC 360".toList) ("A".toList) :=
  ⟨(claim_C9_order_invariance [mOtherDraw, m360] [m360, mOtherDraw]
      (List.Perm.swap m360 mOtherDraw [])).1 ("A".toList),
   (claim_C9_order_invariance [mOtherDraw, m360] [m360, mOtherDraw]
      (List.Perm.swap m360 mOtherDraw [])).2 ("iBC 360".toList) ("A".toList)⟩

/-- Effect of one `calculate_statistics` iteration on bucket totalMatches:
the labels come from classifying `resolveNameRG`, the nested-path name. -/
theorem stepRG_bucket_total (st : AggStateRG) (m : MatchRec) (b n : Str) :
    (lookup2 (stepRG st m).tournament_stats b n).total_matches =
      (lookup2 st.tournament_stats b n).total_matches +
        (if Qualifies m ∧ oppNameOf m = n then
          (if b = (parse_tournament_type_rg (resolveNameRG m)).1 then 1 else 0)
          + (if b = (parse_tournament_type_rg (resolveNameRG m)).2 then 1 else 0)
        else 0) := by
  by_cases hC : m.status ≠ some ("COMPLETED".toList) ∨ m.match_mode ≠ some ("DUAL_PLAYER".toList)
  · unfold stepRG
    rw [if_pos hC,
      if_neg (fun hx => hC.elim (fun hy => hy hx.1.1) (fun hy => hy hx.1.2.1))]
    exact Eq.refl _
  · push_neg at hC
    unfold stepRG
    rw [if_neg (by push_neg; exact hC)]
    rcases hpick : pickUsers (usersOf m) with ⟨a, c⟩
    have hself : selfOf m = a := by rw [selfOf, hpick]
    have hopp : oppOf m = c := by rw [oppOf, hpick]
    cases a with
    | none =>
      cases c with
      | none =>
        rw [if_neg (fun hx => by
          have hz := hx.1.2.2.1
          rw [hself] at hz
          simp at hz)]
        exact Eq.refl _
      | some o2 =>
        rw [if_neg (fun hx => by
          have hz := hx.1.2.2.1
          rw [hself] at hz
          simp at hz)]
        exact Eq.refl _
    | some myself =>
      cases c with
      | none =>
        rw [if_neg (fun hx => by
          have hz := hx.1.2.2.2
          rw [hopp] at hz
          simp at hz)]
        exact Eq.refl _
      | some opponent =>
        have hq : Qualifies m := ⟨hC.1, hC.2, by rw [hself]; rfl, by rw [hopp]; rfl⟩
        have hon : oppNameOf m = opponent.name.getD ("Unknown".toList) := by
          rw [oppNameOf, hopp]
        dsimp only
        by_cases hw : myself.result = some ("WIN".toList)
        · rw [if_pos hw]
          dsimp only
          by_cases hn : oppNameOf m = n
          · rw [if_pos ⟨hq, hn⟩, hon.symm.trans hn]
            simp only [lookup2_bumpBucket, eq_self_iff_true, and_true]
            clear hC hself hopp hpick hq hon hw hn
            split_ifs <;> simp [bumpTotal, bumpWins, bumpLosses] <;> omega
          · have hOPN : ¬ n = opponent.name.getD ("Unknown".toList) :=
              fun he => hn (hon.trans he.symm)
            rw [if_neg (fun hx => hn hx.2),
              lookup2_bumpBucket, if_neg (fun hx => hOPN hx.2),
              lookup2_bumpBucket, if_neg (fun hx => hOPN hx.2),
              lookup2_bumpBucket, if_neg (fun hx => hOPN hx.2),
              lookup2_bumpBucket, if_neg (fun hx => hOPN hx.2)]
            omega
        · by_cases hl : myself.result = some ("LOSS".toList)
          · rw [if_neg hw, if_pos hl]
            dsimp only
            by_cases hn : oppNameOf m = n
            · rw [if_pos ⟨hq, hn⟩, hon.symm.trans hn]
              simp only [lookup2_bumpBucket, eq_self_iff_true, and_true]
              clear hC hself hopp hpick hq hon hw hl hn
              split_ifs <;> simp [bumpTotal, bumpWins, bumpLosses] <;> omega
            · have hOPN : ¬ n = opponent.name.getD ("Unknown".toList) :=
                fun he => hn (hon.trans he.symm)
              rw [if_neg (fun hx => hn hx.2),
                lookup2_bumpBucket, if_neg (fun hx => hOPN hx.2),
                lookup2_bumpBucket, if_neg (fun hx => hOPN hx.2),
                lookup2_bumpBucket, if_neg (fun hx => hOPN hx.2),
                lookup2_bumpBucket, if_neg (fun hx => hOPN hx.2)]
              omega
          · rw [if_neg hw, if_neg hl]
            dsimp only
            by_cases hn : oppNameOf m = n
            · rw [if_pos ⟨hq, hn⟩, hon.symm.trans hn]
              simp only [lookup2_bumpBucket, eq_self_iff_true, and_true]
              clear hC hself hopp hpick hq hon hw hl hn
              split_ifs <;> simp [bumpTotal, bumpWins, bumpLosses] <;> omega
            · have hOPN : ¬ n = opponent.name.getD ("Unknown".toList) :=
                fun he => hn (hon.trans he.symm)
              rw [if_neg (fun hx => hn hx.2),
                lookup2_bumpBucket, if_neg (fun hx => hOPN hx.2),
                lookup2_bumpBucket, if_neg (fun hx => hOPN hx.2)]
              omega

/-- Concrete fixture: a qualifying match whose flat `tournament_name` field is
absent while the nested path carries `"iBC 360 - 250 Blitz"`. -/
def mC4 : MatchRec :=
  { status := some ("COMPLETED".toList), match_mode := some ("DUAL_PLAYER".toList),
    match_user_details := some ⟨some [userSelf, userOppA]⟩,
    tournament_name := none,
    tournament_match_details := some ⟨some ⟨some ("iBC 360 - 250 Blitz".toList)⟩⟩ }

/-- C4 counterexample: neither aggregator implements a primary-then-fallback
resolution. For `mC4` (flat field absent, nested path = `"iBC 360 - 250
Blitz"`), `calculate_head_to_head` classifies with the DEFAULT `'Unknown'`
(Other bucket), never creating an `"iBC 360"` bucket — it does not fall back
to the nested name. -/
theorem claim_C4_counterexample :
    mC4.tournament_name = none ∧
    (((mC4.tournament_match_details.getD ⟨none⟩).tournament_type_details.getD
        ⟨none⟩).tournament_name) = some ("iBC 360 - 250 Blitz".toList) ∧
    Qualifies mC4 ∧
    lookupBucket (stepH2H initState mC4).tournament_stats ("iBC 360".toList) = [] ∧
    (lookup2 (stepH2H initState mC4).tournament_stats
        ("Other".toList) ("A".toList)).total_matches = 1 := by
  refine ⟨?_, ?_, ?_, ?_, ?_⟩ <;> decide

/-- C4 (amended): the two variants resolve the tournament name from different
single sources, with no fallback between them. `calculate_statistics` (report
generator) reads ONLY the nested path, so a match with the flat field absent
and nested name `N` is classified using `N` — its mainType bucket gains the
increment. `calculate_head_to_head` reads ONLY the flat field, so the same
match is classified using the default `'Unknown'` (mainType `"Other"`,
subType `"Unknown"`). -/
theorem claim_C4_amended (st : AggStateRG) (m : MatchRec) (N : Str) (me op : User)
    (hflat : m.tournament_name = none)
    (hnested : (((m.tournament_match_details.getD ⟨none⟩).tournament_type_details.getD
        ⟨none⟩).tournament_name) = some N)
    (hs : m.status = some ("COMPLETED".toList))
    (hm : m.match_mode = some ("DUAL_PLAYER".toList))
    (hpick : pickUsers (usersOf m) = (some me, some op)) :
    resolveNameRG m = N ∧
    resolveNameH2H m = "Unknown".toList ∧
    mainOfH2H m = "Other".toList ∧
    subOfH2H m = "Unknown".toList ∧
    (lookup2 (stepRG st m).tournament_stats (parse_tournament_type_rg N).1
        (op.name.getD ("Unknown".toList))).total_matches
      = (lookup2 st.tournament_stats (parse_tournament_type_rg N).1
          (op.name.getD ("Unknown".toList))).total_matches
        + 1
        + (if (parse_tournament_type_rg N).1 = (parse_tournament_type_rg N).2
            then 1 else 0) := by
  have hres : resolveNameRG m = N := by
    rw [resolveNameRG, hnested]
    rfl
  have hresH : resolveNameH2H m = "Unknown".toList := by
    rw [resolveNameH2H, hflat]
    rfl
  have hq : Qualifies m :=
    ⟨hs, hm, by rw [selfOf, hpick]; rfl, by rw [oppOf, hpick]; rfl⟩
  have hon : oppNameOf m = op.name.getD ("Unknown".toList) := by
    rw [oppNameOf, oppOf, hpick]
  refine ⟨hres, hresH, ?_, ?_, ?_⟩
  · rw [mainOfH2H, hresH]
    decide
  · rw [subOfH2H, hresH]
    decide
  · rw [stepRG_bucket_total, if_pos ⟨hq, hon⟩, hres, if_pos rfl]
    split_ifs <;> omega

/-- Witness for C4 at the fixture `mC4`. -/
theorem claim_C4_witness :
    resolveNameRG mC4 = "iBC 360 - 250 Blitz".toList ∧
    resolveNameH2H mC4 = "Unknown".toList ∧
    mainOfH2H mC4 = "Other".toList ∧
    subOfH2H mC4 = "Unknown".toList ∧
    (lookup2 (stepRG initStateRG mC4).tournament_stats
        (parse_tournament_type_rg ("iBC 360 - 250 Blitz".toList)).1
        (userOppA.name.getD ("Unknown".toList))).total_matches
      = (lookup2 initStateRG.tournament_stats
          (parse_tournament_type_rg ("iBC 360 - 250 Blitz".toList)).1
          (userOppA.name.getD ("Unknown".toList))).total_matches
        + 1
        + (if (parse_tournament_type_rg ("iBC 360 - 250 Blitz".toList)).1
              = (parse_tournament_type_rg ("iBC 360 - 250 Blitz".toList)).2
            then 1 else 0) :=
  claim_C4_amended initStateRG mC4 ("iBC 360 - 250 Blitz".toList) userSelf userOppA
    (by decide) (by decide) (by decide) (by decide) (by decide)

/-- Lexicographic comparison of strings by code point, as used by Python
`sorted` on `str`. -/
def lexLe : Str → Str → Bool
  | [], _ => true
  | _ :: _, [] => false
  | a :: as, b :: bs => if a < b then true else if b < a then false else lexLe as bs

/-- `lexLe` as a relation. -/
def LexLe (a b : Str) : Prop := lexLe a b = true

instance : DecidableRel LexLe := fun a b => by
  unfold LexLe
  infer_instance

theorem lexLe_total : ∀ a b : Str, lexLe a b = true ∨ lexLe b a = true
  | [], _ => Or.inl rfl
  | _ :: _, [] => Or.inr rfl
  | x :: xs, y :: ys => by
    by_cases hxy : x < y
    · left
      simp [lexLe, hxy]
    · by_cases hyx : y < x
      · right
        simp [lexLe, hyx]
      · have hxy2 : x = y := le_antisymm (not_lt.mp hyx) (not_lt.mp hxy)
        subst hxy2
        rcases lexLe_total xs ys with h | h
        · left
          simp [lexLe, lt_irrefl, h]
        · right
          simp [lexLe, lt_irrefl, h]

theorem lexLe_trans : ∀ a b c : Str,
    lexLe a b = true → lexLe b c = true → lexLe a c = true
  | [], _, _, _, _ => rfl
  | _ :: _, [], _, h1, _ => by simp [lexLe] at h1
  | _ :: _, _ :: _, [], _, h2 => by simp [lexLe] at h2
  | x :: xs, y :: ys, z :: zs, h1, h2 => by
    simp only [lexLe] at h1 h2 ⊢
    by_cases hxy : x < y
    · by_cases hyz : y < z
      · simp [lt_trans hxy hyz]
      · by_cases hzy : z < y
        · simp [hyz, hzy] at h2
        · have hyz2 : y = z := le_antisymm (not_lt.mp hzy) (not_lt.mp hyz)
          simp [hyz2 ▸ hxy]
    · by_cases hyx : y < x
      · simp [hxy, hyx] at h1
      · have hxy2 : x = y := le_antisymm (not_lt.mp hyx) (not_lt.mp hxy)
        subst hxy2
        simp only [lt_irrefl, if_false, if_neg (lt_irrefl x)] at h1
        by_cases hxz : x < z
        · simp [hxz]
        · by_cases hzx : z < x
          · simp [hxz, hzx] at h2
          · simp only [hxz, hzx, if_false, if_neg hxz, if_neg hzx] at h2 ⊢
            exact lexLe_trans xs ys zs h1 h2

instance : IsTotal Str LexLe := ⟨fun a b => lexLe_total a b⟩

instance : IsTrans Str LexLe := ⟨fun a b c => lexLe_trans a b c⟩

/-- `get_tournament_subtypes` (both source files): collect the keys of
`tournament_stats` that start with `main_type` and contain `" - "` anywhere,
then `sorted(...)`. -/
def get_tournament_subtypes (t : TStats) (main_type : Str) : List Str :=
  List.insertionSort LexLe
    ((t.map Prod.fst).filter
      (fun k => main_type.isPrefixOf k && containsSub (" - ".toList) k))

/-- Concrete fixture: a qualifying match in a tournament named `"iBC Cup - 1"`
(contains neither "iBC PRO 360" nor "iBC 360", so the full name becomes a
bucket key). -/
def mCup : MatchRec :=
  { status := some ("COMPLETED".toList), match_mode := some ("DUAL_PLAYER".toList),
    match_user_details := some ⟨some [userSelf, userOppA]⟩,
    tournament_name := some ("iBC Cup - 1".toList), tournament_match_details := none }

/-- C7 counterexample: on the reachable state obtained from `mCup`, calling
`get_tournament_subtypes` with `M = "iBC"` returns the label
`"iBC Cup - 1"`, which starts with `M` and contains `" - "` further on but
does NOT begin with `M ++ " - "` — the code checks the two conditions
independently, not the concatenation. -/
theorem claim_C7_counterexample :
    ("iBC Cup - 1".toList
        ∈ get_tournament_subtypes
            (calculate_head_to_head [mCup]).tournament_stats ("iBC".toList)) ∧
    (("iBC - ".toList).isPrefixOf ("iBC Cup - 1".toList) = false) := by
  refine ⟨?_, ?_⟩ <;> decide

/-- C7 (amended): `get_tournament_subtypes t M` returns exactly the bucket
labels that start with `M` AND contain `" - "` ANYWHERE (not necessarily
immediately after `M`), sorted lexicographically. -/
theorem claim_C7_amended (t : TStats) (M : Str) :
    (∀ l, l ∈ get_tournament_subtypes t M ↔
      (l ∈ t.map Prod.fst ∧ M.isPrefixOf l = true
        ∧ containsSub (" - ".toList) l = true)) ∧
    (get_tournament_subtypes t M).Sorted LexLe := by
  constructor
  · intro l
    unfold get_tournament_subtypes
    constructor
    · intro hl
      have hm := (List.perm_insertionSort LexLe _).mem_iff.mp hl
      rw [List.mem_filter] at hm
      refine ⟨hm.1, ?_, ?_⟩ <;> simp only [Bool.and_eq_true] at hm <;>
        [exact hm.2.1; exact hm.2.2]
    · rintro ⟨h1, h2, h3⟩
      apply (List.perm_insertionSort LexLe _).mem_iff.mpr
      rw [List.mem_filter]
      refine ⟨h1, ?_⟩
      simp only [Bool.and_eq_true]
      exact ⟨h2, h3⟩
  · exact List.sorted_insertionSort LexLe _

/-- `stats['wins'] / stats['total_matches']`, as an exact rational (the
Python float division, modelled exactly). -/
def win_rate (r : Tally) : ℚ := (r.wins : ℚ) / (r.total_matches : ℚ)

/-- The loop of `find_best_opponent` (lines 245-260 of
`cricket_head_to_head.py`): best-so-far name and rate, rate initialised to
-1, updated on strict improvement among opponents with ≥ 2 matches. -/
def find_best_opponent (stats : Stats) : Option Str × ℚ :=
  stats.foldl
    (fun best p =>
      if 2 ≤ p.2.total_matches then
        if best.2 < win_rate p.2 then (some p.1, win_rate p.2) else best
      else best)
    (none, -1)

/-- The guard-free update step of the best-opponent loop. -/
def bestStep (best : Option Str × ℚ) (p : Str × Tally) : Option Str × ℚ :=
  if best.2 < win_rate p.2 then (some p.1, win_rate p.2) else best

/-- Leftmost maximiser of `win_rate` in a list of entries. -/
def firstMax : Stats → Option (Str × Tally)
  | [] => none
  | e :: rest =>
    match firstMax rest with
    | none => some e
    | some b => if win_rate e.2 < win_rate b.2 then some b else some e

theorem firstMax_eq_none (l : Stats) : firstMax l = none ↔ l = [] := by
  cases l with
  | nil => simp [firstMax]
  | cons e rest =>
    constructor
    · intro h
      exfalso
      cases hfm : firstMax rest with
      | none =>
        rw [show firstMax (e :: rest) = some e from by simp only [firstMax, hfm]] at h
        simp at h
      | some b =>
        rw [show firstMax (e :: rest)
          = if win_rate e.2 < win_rate b.2 then some b else some e from by
            simp only [firstMax, hfm]] at h
        by_cases hlt : win_rate e.2 < win_rate b.2 <;> simp [hlt] at h
    · intro h
      exact absurd h (List.cons_ne_nil e rest)

/-- The guarded fold over the whole list equals the guard-free fold over the
eligible (≥ 2 matches) entries. -/
theorem find_best_eq_filter (stats : Stats) (acc : Option Str × ℚ) :
    stats.foldl
      (fun best p =>
        if 2 ≤ p.2.total_matches then
          if best.2 < win_rate p.2 then (some p.1, win_rate p.2) else best
        else best)
      acc
    = (stats.filter (fun p => decide (2 ≤ p.2.total_matches))).foldl bestStep acc := by
  induction stats generalizing acc with
  | nil => rfl
  | cons p t ih =>
    rw [List.foldl_cons]
    by_cases hp : 2 ≤ p.2.total_matches
    · rw [if_pos hp, List.filter_cons_of_pos (by simpa using hp), List.foldl_cons]
      exact ih (bestStep acc p)
    · rw [if_neg hp, List.filter_cons_of_neg (by simpa using hp)]
      exact ih acc

/-- The guard-free fold tracks the leftmost maximiser: it updates away from
the accumulator exactly when some entry strictly beats the starting rate. -/
theorem foldl_bestStep_eq (l : Stats) (acc : Option Str) (r : ℚ) :
    l.foldl bestStep (acc, r)
      = match firstMax l with
        | none => (acc, r)
        | some e => if r < win_rate e.2 then (some e.1, win_rate e.2) else (acc, r) := by
  induction l generalizing acc r with
  | nil => rfl
  | cons x rest ih =>
    rw [List.foldl_cons,
      show bestStep (acc, r) x
        = if r < win_rate x.2 then (some x.1, win_rate x.2) else (acc, r) from rfl]
    cases hfm : firstMax rest with
    | none =>
      have hrest : rest = [] := (firstMax_eq_none rest).mp hfm
      subst hrest
      rw [show firstMax [x] = some x from rfl, List.foldl_nil]
    | some b =>
      rw [show firstMax (x :: rest)
        = if win_rate x.2 < win_rate b.2 then some b else some x from by
          simp only [firstMax, hfm]]
      by_cases hx : r < win_rate x.2
      · rw [if_pos hx, ih, hfm]
        dsimp only
        by_cases hb : win_rate x.2 < win_rate b.2
        · rw [if_pos hb, if_pos hb]
          dsimp only
          rw [if_pos (lt_trans hx hb)]
        · rw [if_neg hb, if_neg hb]
          dsimp only
          rw [if_pos hx]
      · rw [if_neg hx, ih, hfm]
        dsimp only
        by_cases hb : win_rate x.2 < win_rate b.2
        · rw [if_pos hb]
        · rw [if_neg hb]
          dsimp only
          have hbr : ¬ r < win_rate b.2 := fun hc =>
            hx (lt_of_lt_of_le hc (not_lt.mp hb))
          rw [if_neg hbr, if_neg hx]

/-- The leftmost maximiser decomposes the list: everything before it is
strictly smaller, everything in the list is at most it. -/
theorem firstMax_spec : ∀ (l : Stats) (e : Str × Tally), firstMax l = some e →
    ∃ pre post, l = pre ++ e :: post
      ∧ (∀ p ∈ pre, win_rate p.2 < win_rate e.2)
      ∧ (∀ p ∈ l, win_rate p.2 ≤ win_rate e.2)
  | [], e, h => by simp [firstMax] at h
  | x :: rest, e, h => by
    cases hfm : firstMax rest with
    | none =>
      have hrest : rest = [] := (firstMax_eq_none rest).mp hfm
      subst hrest
      rw [show firstMax [x] = some x from rfl] at h
      rw [show e = x from (Option.some.inj h).symm]
      exact ⟨[], [], rfl, by simp, by simp⟩
    | some b =>
      rw [show firstMax (x :: rest)
        = if win_rate x.2 < win_rate b.2 then some b else some x from by
          simp only [firstMax, hfm]] at h
      by_cases hb : win_rate x.2 < win_rate b.2
      · rw [if_pos hb] at h
        rw [show e = b from (Option.some.inj h).symm]
        obtain ⟨pre, post, hsplit, hpre, hall⟩ := firstMax_spec rest b hfm
        refine ⟨x :: pre, post, by rw [hsplit]; rfl, ?_, ?_⟩
        · intro p hp
          rcases List.mem_cons.mp hp with hp | hp
          · rw [hp]
            exact hb
          · exact hpre p hp
        · intro p hp
          rcases List.mem_cons.mp hp with hp | hp
          · rw [hp]
            exact le_of_lt hb
          · exact hall p hp
      · rw [if_neg hb] at h
        rw [show e = x from (Option.some.inj h).symm]
        obtain ⟨pre, post, hsplit, hpre, hall⟩ := firstMax_spec rest b hfm
        refine ⟨[], rest, rfl, by simp, ?_⟩
        intro p hp
        rcases List.mem_cons.mp hp with hp | hp
        · rw [hp]
        · exact le_trans (hall p hp) (not_lt.mp hb)

/-- C8: `find_best_opponent` returns no opponent iff no opponent has at least
2 matches; otherwise it returns the opponent whose wins/totalMatches ratio is
maximal among those with ≥ 2 matches, and among equals the FIRST in iteration
order (all earlier eligible entries are strictly worse). Win rates are
modelled as exact rationals. -/
theorem claim_C8_best_opponent (stats : Stats) :
    ((find_best_opponent stats).1 = none ↔
      stats.filter (fun p => decide (2 ≤ p.2.total_matches)) = []) ∧
    (∀ nm, (find_best_opponent stats).1 = some nm →
      ∃ pre e post,
        stats.filter (fun p => decide (2 ≤ p.2.total_matches)) = pre ++ e :: post ∧
        e.1 = nm ∧
        (∀ p ∈ pre, win_rate p.2 < win_rate e.2) ∧
        (∀ p ∈ stats.filter (fun p => decide (2 ≤ p.2.total_matches)),
          win_rate p.2 ≤ win_rate e.2)) := by
  have hF : find_best_opponent stats
      = (stats.filter (fun p => decide (2 ≤ p.2.total_matches))).foldl
          bestStep (none, -1) := by
    unfold find_best_opponent
    exact find_best_eq_filter stats (none, -1)
  cases hfm : firstMax (stats.filter (fun p => decide (2 ≤ p.2.total_matches))) with
  | none =>
    have hempty := (firstMax_eq_none _).mp hfm
    constructor
    · rw [hF, foldl_bestStep_eq, hfm]
      exact ⟨fun _ => hempty, fun _ => rfl⟩
    · intro nm hnm
      rw [hF, foldl_bestStep_eq, hfm] at hnm
      simp at hnm
  | some e =>
    obtain ⟨pre, post, hsplit, hpre, hall⟩ := firstMax_spec _ e hfm
    have hmem : e ∈ stats.filter (fun p => decide (2 ≤ p.2.total_matches)) := by
      rw [hsplit]
      exact List.mem_append_right pre (List.mem_cons_self e post)
    have h2 : 2 ≤ e.2.total_matches := by
      have hmf := List.mem_filter.mp hmem
      simpa using hmf.2
    have hrate : (0 : ℚ) ≤ win_rate e.2 :=
      div_nonneg (Nat.cast_nonneg _) (Nat.cast_nonneg _)
    have hneg : (-1 : ℚ) < win_rate e.2 := lt_of_lt_of_le (by norm_num) hrate
    have hfind : find_best_opponent stats = (some e.1, win_rate e.2) := by
      rw [hF, foldl_bestStep_eq, hfm]
      dsimp only
      rw [if_pos hneg]
    constructor
    · rw [hfind]
      constructor
      · intro h
        simp at h
      · intro h
        rw [h] at hfm
        simp [firstMax] at hfm
    · intro nm hnm
      rw [hfind] at hnm
      exact ⟨pre, e, post, hsplit, Option.some.inj hnm, hpre, hall⟩

/-- Witness for C8 on a two-opponent table: `"A"` with 3/3 beats `"B"` with
1/2. -/
theorem claim_C8_witness :
    ∃ pre e post,
      ([(("A".toList : Str), (⟨3, 0, 3⟩ : Tally)),
        (("B".toList : Str), (⟨1, 1, 2⟩ : Tally))].filter
          (fun p => decide (2 ≤ p.2.total_matches))) = pre ++ e :: post ∧
      e.1 = "A".toList ∧
      (∀ p ∈ pre, win_rate p.2 < win_rate e.2) ∧
      (∀ p ∈ [(("A".toList : Str), (⟨3, 0, 3⟩ : Tally)),
          (("B".toList : Str), (⟨1, 1, 2⟩ : Tally))].filter
            (fun p => decide (2 ≤ p.2.total_matches)),
        win_rate p.2 ≤ win_rate e.2) :=
  (claim_C8_best_opponent
      [(("A".toList : Str), (⟨3, 0, 3⟩ : Tally)),
       (("B".toList : Str), (⟨1, 1, 2⟩ : Tally))]).2
    ("A".toList)
    (by norm_num [find_best_opponent, List.foldl_cons, List.foldl_nil, win_rate])

end Cricket
